import Mathlib

/-!
Verification of the `DenoisingAutoencoder` core of the nn-cuda repository.

The repository exposes the class through `src/DenoisingAutoencoder.h`; the
method bodies live in an implementation file that is not part of `src/`, so
every operation below is modelled from the specification, faithful to its
words, while the constants, field declarations and in-class initializers are
taken from the header itself.  Real-valued machine arithmetic (`double` in the
source) is modelled exactly over `ℚ`.  The `Neuron` collaborator is out of
scope for the core and is modelled as an opaque capability.
-/

namespace NNCuda

/-- From `src/DenoisingAutoencoder.h` line 23: `static const unsigned int MAX_TRIAL = 300;`
the cap on the number of learning trials. -/
def MAX_TRIAL : ℕ := 300

/-- From `src/DenoisingAutoencoder.h` line 24: `constexpr static const double MAX_GAP = 0.1;`
the tolerated aggregate error. -/
def MAX_GAP : ℚ := 1 / 10

/-- Modelled from the spec (§4.5), body of `DenoisingAutoencoder::mean_squared_error`
missing from `src/`: the per-element error between a produced output scalar and
its answer scalar is `(output - answer)^2`. -/
def mean_squared_error (output answer : ℚ) : ℚ := (output - answer) ^ 2

/-- Modelled from the spec (§5, §9), thread fan-out code missing from `src/`:
given a total count `N` and worker count `T`, the fan-out partitions `[0, N)`
into `T` contiguous half-open ranges `(begin, end)`, each of size `N / T`, the
last absorbing any remainder. -/
def threadRanges (N T : ℕ) : List (ℕ × ℕ) :=
  (List.range T).map fun i => (i * (N / T), if i = T - 1 then N else (i + 1) * (N / T))

/-- Modelled from the spec (§2, §6), the `Neuron` collaborator being out of
scope: an opaque stateful unit of type `σ` offering a scalar output for an
input vector, a one-step local weight update for a learning-input/target pair,
and the collaborator-internal derivation of the error signal handed to a
middle neuron (index `k`) from the updated output layer and its outputs. -/
structure NeuronAPI (σ : Type) where
  output : σ → List ℚ → ℚ
  update : σ → List ℚ → ℚ → σ
  errorSignal : List σ → List ℚ → ℕ → ℚ

/-- The state of a `DenoisingAutoencoder` instance; the fields are those
declared in `src/DenoisingAutoencoder.h` lines 27-41, with the two neuron
collections held abstractly as lists of collaborator states. -/
structure DAState (σ : Type) where
  input_neuron_num : ℕ
  middle_neuron_num : ℕ
  output_neuron_num : ℕ
  middle_layer_type : ℤ
  successFlg : Bool
  middle_neurons : List σ
  output_neurons : List σ
  h : List ℚ
  o : List ℚ
  learnedH : List ℚ
  learnedO : List ℚ
  deriving DecidableEq

/-- Modelled from the spec (§4.1, §7), body of the constructor missing from
`src/`: a configuration error (zero input size, rate outside `(0, 1]`, or a
rate yielding zero middle neurons) is fatal to instance creation; otherwise
`middle_neuron_num = round(num_input * compression_rate)`, the output layer
has `num_input` neurons, and the middle-layer activation type is fixed at the
header's in-class initializer `0` (identity).  `mkMid i` / `mkOut i` stand for
the collaborator's randomly initialized `i`-th middle / output neuron. -/
def mkDenoisingAutoencoder (σ : Type) (mkMid mkOut : ℕ → σ)
    (num_input : ℕ) (compression_rate : ℚ) : Option (DAState σ) :=
  if num_input = 0 then none
  else if compression_rate ≤ 0 ∨ 1 < compression_rate then none
  else if (round ((num_input : ℚ) * compression_rate)).toNat = 0 then none
  else some
    { input_neuron_num := num_input
      middle_neuron_num := (round ((num_input : ℚ) * compression_rate)).toNat
      output_neuron_num := num_input
      middle_layer_type := 0
      successFlg := true
      middle_neurons :=
        (List.range (round ((num_input : ℚ) * compression_rate)).toNat).map mkMid
      output_neurons := (List.range num_input).map mkOut
      h := List.replicate (round ((num_input : ℚ) * compression_rate)).toNat 0
      o := List.replicate num_input 0
      learnedH := List.replicate (round ((num_input : ℚ) * compression_rate)).toNat 0
      learnedO := List.replicate num_input 0 }

/-- Modelled from the spec (§4.2, §4.3): the middle layer's outputs for one
input vector — every middle neuron computes its activation over the full
input vector.  The thread fan-out writes each slot of `h` exactly once
(`threadRanges` partitions the indices), so the buffer it fills equals this
sequential map. -/
def middleOut (api : NeuronAPI σ) (mids : List σ) (v : List ℚ) : List ℚ :=
  mids.map fun n => api.output n v

/-- Modelled from the spec (§4.2): one full forward pass — middle layer over
the input vector, then output layer over the middle outputs — returning the
pair `(h, o)` of layer output buffers. -/
def forwardPass (api : NeuronAPI σ) (mids outs : List σ) (v : List ℚ) :
    List ℚ × List ℚ :=
  let hh := middleOut api mids v
  (hh, outs.map fun n => api.output n hh)

/-- Modelled from the spec (§4.2), body of `DenoisingAutoencoder::out` missing
from `src/`: forward-evaluates both layers on the input vector, writing the
layer buffers `h` and `o`, and returns a copy of `o`; the `showResult` flag
only surfaces diagnostics and has no semantic effect on the computed values. -/
def DAState.out (s : DAState σ) (api : NeuronAPI σ) (input : List ℚ)
    (showResult : Bool) : List ℚ × DAState σ :=
  let r := forwardPass api s.middle_neurons s.output_neurons input
  let s2 := { s with h := r.1, o := r.2 }
  (s2.o, s2)

/-- Modelled from the spec (§4.3), body of `getMiddleOutput` missing from
`src/`: for each noisy input vector, in order, runs only the middle-layer half
of forward evaluation and collects the resulting `h`; the output layer is not
touched.  The state's `h` buffer holds the last vector processed. -/
def DAState.getMiddleOutput (s : DAState σ) (api : NeuronAPI σ)
    (noisy_input : List (List ℚ)) : List (List ℚ) × DAState σ :=
  let batch := noisy_input.map (middleOut api s.middle_neurons)
  (batch, { s with h := batch.getLastD s.h })

/-- From `src/DenoisingAutoencoder.h` line 20, body missing from `src/`
(spec §4.6): a pure read of `middle_neuron_num`. -/
def DAState.getCurrentMiddleNeuronNum (s : DAState σ) : ℕ :=
  s.middle_neuron_num

/-- Sum of the per-element squared errors between an output vector and its
answer vector (spec §4.5). -/
def sqErrSum (o a : List ℚ) : ℚ :=
  ((o.zip a).map fun p => mean_squared_error p.1 p.2).sum

/-- Modelled from the spec (§4.4 steps 1-2, §4.5): the aggregate error of one
trial — forward pass over every noisy vector, per-element squared error
against the aligned clean target, averaged over all samples and all output
dimensions. -/
def aggregateError (api : NeuronAPI σ) (mids outs : List σ)
    (clean noisy : List (List ℚ)) : ℚ :=
  (((noisy.zip clean).map fun p =>
      sqErrSum (forwardPass api mids outs p.1).2 p.2).sum)
    / ((clean.length : ℚ) * (outs.length : ℚ))

/-- Modelled from the spec (§4.4 step 4): one update pass.  Using the current
`learnedH`/`learnedO` (from the forward pass on the noisy signal), every
output neuron is updated with `learnedH` as learning input and the clean
target for its output index, then every middle neuron is updated with the
noisy sample vector as learning input and the collaborator-derived error
signal from the output-layer update. -/
def updatePass (api : NeuronAPI σ) (s : DAState σ)
    (clean noisy : List (List ℚ)) : DAState σ :=
  let lastC := clean.getLastD []
  let lastN := noisy.getLastD []
  let lh := middleOut api s.middle_neurons lastN
  let lo := s.output_neurons.map fun n => api.output n lh
  let newOuts := s.output_neurons.enum.map fun p =>
    api.update p.2 lh (lastC.getD p.1 0)
  let newMids := s.middle_neurons.enum.map fun p =>
    api.update p.2 lastN (api.errorSignal newOuts lo p.1)
  { s with middle_neurons := newMids, output_neurons := newOuts,
           learnedH := lh, learnedO := lo }

/-- The state after `k` successive update passes of `learn`. -/
def iterUpdate (api : NeuronAPI σ) (clean noisy : List (List ℚ)) :
    ℕ → DAState σ → DAState σ
  | 0, s => s
  | k + 1, s => iterUpdate api clean noisy k (updatePass api s clean noisy)

/-- Modelled from the spec (§4.4): the bounded trial loop of `learn`.  Each
trial checks the aggregate error; below `MAX_GAP` it marks success and stops,
otherwise it runs one update pass, and exhausting the budget marks failure.
Returns the final state and the number of update trials executed. -/
def learnGo (api : NeuronAPI σ) (clean noisy : List (List ℚ)) :
    ℕ → ℕ → DAState σ → DAState σ × ℕ
  | 0, trials, s => ({ s with successFlg := false }, trials)
  | fuel + 1, trials, s =>
    if aggregateError api s.middle_neurons s.output_neurons clean noisy
        < MAX_GAP then
      ({ s with successFlg := true }, trials)
    else
      learnGo api clean noisy fuel (trials + 1) (updatePass api s clean noisy)

/-- Modelled from the spec (§4.4, §7): the shape precondition of `learn` —
the clean and noisy batches have equal length and every vector in either
batch has length `input_neuron_num`. -/
def shapesOk (s : DAState σ) (clean noisy : List (List ℚ)) : Bool :=
  clean.length == noisy.length
    && clean.all (fun v => v.length == s.input_neuron_num)
    && noisy.all (fun v => v.length == s.input_neuron_num)

/-- Modelled from the spec (§4.4, §7), body of `learn` missing from `src/`:
a shape mismatch makes the call fail; otherwise up to `MAX_TRIAL` trials run
as in `learnGo`.  Returns the final state and the number of update trials
executed, or the shape error. -/
def learn (api : NeuronAPI σ) (s : DAState σ)
    (input noisy_input : List (List ℚ)) : Except String (DAState σ × ℕ) :=
  if shapesOk s input noisy_input then
    .ok (learnGo api input noisy_input MAX_TRIAL 0 s)
  else
    .error "shape mismatch"

/-- A trivial neuron collaborator (every output `0`, updates keep the neuron
state) used to instantiate the theorems on concrete inputs. -/
def zeroAPI : NeuronAPI Unit :=
  ⟨fun _ _ => 0, fun n _ _ => n, fun _ _ _ => 0⟩

/-- A neuron collaborator whose outputs are constantly `1` and whose updates
keep the neuron state, so the reconstruction error of a zero target never
shrinks; used to instantiate the non-convergence theorems. -/
def oneAPI : NeuronAPI Unit :=
  ⟨fun _ _ => 1, fun n _ _ => n, fun _ _ _ => 0⟩

/-- The concrete one-input instance produced by
`mkDenoisingAutoencoder Unit _ _ 1 1`; used to instantiate the theorems. -/
def demoState : DAState Unit :=
  { input_neuron_num := 1
    middle_neuron_num := 1
    output_neuron_num := 1
    middle_layer_type := 0
    successFlg := true
    middle_neurons := [()]
    output_neurons := [()]
    h := [0]
    o := [0]
    learnedH := [0]
    learnedO := [0] }

/-- The closed boundary sequence of the fan-out partition: `rangeBoundary N T i`
is where the `i`-th range begins (for `i < T`) and the `i`-th boundary is the
end of range `i - 1`; boundary `T` is `N`. -/
def rangeBoundary (N T i : ℕ) : ℕ := if i < T then i * (N / T) else N

/-- The index of the thread range containing a given neuron index `k < N`:
the last range when each range is empty (`N / T = 0`), otherwise
`k / (N / T)` capped at the last range. -/
def containingRange (N T k : ℕ) : ℕ :=
  if N / T = 0 then T - 1 else min (k / (N / T)) (T - 1)

lemma rangeBoundary_le_N (N T i : ℕ) : rangeBoundary N T i ≤ N := by
  unfold rangeBoundary
  split
  · calc i * (N / T) ≤ T * (N / T) := by
          exact Nat.mul_le_mul_right _ (Nat.le_of_lt (by assumption))
      _ = N / T * T := Nat.mul_comm _ _
      _ ≤ N := Nat.div_mul_le_self N T
  · exact le_rfl

lemma rangeBoundary_mono (N T : ℕ) {i j : ℕ} (hij : i ≤ j) :
    rangeBoundary N T i ≤ rangeBoundary N T j := by
  unfold rangeBoundary
  by_cases hj : j < T
  · rw [if_pos (lt_of_le_of_lt hij hj), if_pos hj]
    exact Nat.mul_le_mul_right _ hij
  · rw [if_neg hj]
    split
    · calc i * (N / T) ≤ T * (N / T) := by
            exact Nat.mul_le_mul_right _ (Nat.le_of_lt (by assumption))
        _ = N / T * T := Nat.mul_comm _ _
        _ ≤ N := Nat.div_mul_le_self N T
    · exact le_rfl

lemma rangeBoundary_zero (N T : ℕ) (hT : 1 ≤ T) : rangeBoundary N T 0 = 0 := by
  unfold rangeBoundary
  rw [if_pos (show 0 < T from hT)]
  exact Nat.zero_mul _

lemma rangeBoundary_top (N T : ℕ) : rangeBoundary N T T = N := by
  simp [rangeBoundary]

lemma threadRanges_length (N T : ℕ) : (threadRanges N T).length = T := by
  simp [threadRanges]

lemma threadRanges_get (N T : ℕ) (r : Fin (threadRanges N T).length) :
    (threadRanges N T).get r
      = (rangeBoundary N T r.val, rangeBoundary N T (r.val + 1)) := by
  have hr : r.val < T := by
    have := r.isLt; simpa [threadRanges_length] using this
  have h1 : r.val * (N / T) = rangeBoundary N T r.val := by
    simp [rangeBoundary, hr]
  simp only [threadRanges, List.get_eq_getElem, List.getElem_map, List.getElem_range]
  rw [h1]
  congr 1
  by_cases hlast : r.val = T - 1
  · have hT1 : r.val + 1 = T := by omega
    rw [if_pos hlast, hT1, rangeBoundary_top]
  · have : r.val + 1 < T := by omega
    rw [if_neg hlast]
    simp [rangeBoundary, this]

lemma containingRange_lt (N T k : ℕ) (hT : 1 ≤ T) : containingRange N T k < T := by
  unfold containingRange
  split
  · omega
  · have := Nat.min_le_right (k / (N / T)) (T - 1)
    omega

lemma containingRange_lo (N T k : ℕ) (hT : 1 ≤ T) :
    rangeBoundary N T (containingRange N T k) ≤ k := by
  have hlt := containingRange_lt N T k hT
  rw [rangeBoundary, if_pos hlt]
  unfold containingRange
  split
  · rename_i hq
    rw [hq, Nat.mul_zero]
    exact Nat.zero_le k
  · calc min (k / (N / T)) (T - 1) * (N / T)
        ≤ k / (N / T) * (N / T) :=
          Nat.mul_le_mul_right _ (Nat.min_le_left _ _)
      _ ≤ k := Nat.div_mul_le_self k (N / T)

lemma containingRange_hi (N T k : ℕ) (hT : 1 ≤ T) (hk : k < N) :
    k < rangeBoundary N T (containingRange N T k + 1) := by
  by_cases hq : N / T = 0
  · have he : containingRange N T k = T - 1 := by
      unfold containingRange
      rw [if_pos hq]
    rw [he, show T - 1 + 1 = T by omega, rangeBoundary_top]
    exact hk
  · have he : containingRange N T k = min (k / (N / T)) (T - 1) := by
      unfold containingRange
      rw [if_neg hq]
    by_cases hlast : min (k / (N / T)) (T - 1) = T - 1
    · rw [he, hlast, show T - 1 + 1 = T by omega, rangeBoundary_top]
      exact hk
    · have hmin : min (k / (N / T)) (T - 1) = k / (N / T) := by
        rcases Nat.le_total (k / (N / T)) (T - 1) with h | h
        · exact Nat.min_eq_left h
        · exact absurd (Nat.min_eq_right h) hlast
      rw [hmin] at hlast
      have h2 := Nat.min_le_right (k / (N / T)) (T - 1)
      rw [hmin] at h2
      have hi1 : containingRange N T k + 1 < T := by
        rw [he, hmin]
        omega
      rw [rangeBoundary, if_pos hi1, he, hmin,
        Nat.mul_comm (k / (N / T) + 1) (N / T)]
      exact Nat.lt_mul_div_succ k (Nat.pos_of_ne_zero hq)

lemma containingRange_unique (N T k j : ℕ) (hT : 1 ≤ T) (hk : k < N)
    (hj : j < T) (hlo : rangeBoundary N T j ≤ k)
    (hhi : k < rangeBoundary N T (j + 1)) :
    j = containingRange N T k := by
  rcases lt_trichotomy j (containingRange N T k) with hlt | heq | hgt
  · exfalso
    have hm : rangeBoundary N T (j + 1) ≤ rangeBoundary N T (containingRange N T k) :=
      rangeBoundary_mono N T (by omega)
    have hclo := containingRange_lo N T k hT
    omega
  · exact heq
  · exfalso
    have hm : rangeBoundary N T (containingRange N T k + 1) ≤ rangeBoundary N T j :=
      rangeBoundary_mono N T (by omega)
    have hchi := containingRange_hi N T k hT hk
    omega

lemma updatePass_middle_layer_type (api : NeuronAPI σ) (s : DAState σ)
    (clean noisy : List (List ℚ)) :
    (updatePass api s clean noisy).middle_layer_type = s.middle_layer_type := rfl

lemma learnGo_middle_layer_type (api : NeuronAPI σ) (clean noisy : List (List ℚ)) :
    ∀ fuel trials (s : DAState σ),
      ((learnGo api clean noisy fuel trials s).1).middle_layer_type
        = s.middle_layer_type := by
  intro fuel
  induction fuel with
  | zero => intro trials s; rfl
  | succ n ih =>
    intro trials s
    unfold learnGo
    split
    · rfl
    · rw [ih]
      rfl

lemma learnGo_trials_le (api : NeuronAPI σ) (clean noisy : List (List ℚ)) :
    ∀ fuel trials (s : DAState σ),
      (learnGo api clean noisy fuel trials s).2 ≤ trials + fuel := by
  intro fuel
  induction fuel with
  | zero => intro trials s; simp [learnGo]
  | succ n ih =>
    intro trials s
    unfold learnGo
    split
    · simp
    · calc (learnGo api clean noisy n (trials + 1) (updatePass api s clean noisy)).2
          ≤ trials + 1 + n := ih _ _
        _ = trials + (n + 1) := by omega

lemma iterUpdate_succ_shift (api : NeuronAPI σ) (clean noisy : List (List ℚ))
    (k : ℕ) (s : DAState σ) :
    iterUpdate api clean noisy (k + 1) s
      = iterUpdate api clean noisy k (updatePass api s clean noisy) := rfl

lemma learnGo_stuck (api : NeuronAPI σ) (clean noisy : List (List ℚ)) :
    ∀ fuel trials (s : DAState σ),
      (∀ k < fuel, MAX_GAP ≤ aggregateError api
          (iterUpdate api clean noisy k s).middle_neurons
          (iterUpdate api clean noisy k s).output_neurons clean noisy) →
      learnGo api clean noisy fuel trials s
        = ({ iterUpdate api clean noisy fuel s with successFlg := false },
            trials + fuel) := by
  intro fuel
  induction fuel with
  | zero => intro trials s _; simp [learnGo, iterUpdate]
  | succ n ih =>
    intro trials s hstuck
    have h0 : MAX_GAP ≤ aggregateError api s.middle_neurons s.output_neurons
        clean noisy := by
      have := hstuck 0 (Nat.succ_pos n)
      simpa [iterUpdate] using this
    have hrec : ∀ k < n, MAX_GAP ≤ aggregateError api
        (iterUpdate api clean noisy k (updatePass api s clean noisy)).middle_neurons
        (iterUpdate api clean noisy k
          (updatePass api s clean noisy)).output_neurons clean noisy := by
      intro k hk
      have := hstuck (k + 1) (by omega)
      simpa [iterUpdate_succ_shift] using this
    unfold learnGo
    rw [if_neg (not_lt.mpr h0), ih (trials + 1) (updatePass api s clean noisy) hrec,
      iterUpdate_succ_shift]
    congr 1
    omega

lemma learnGo_success (api : NeuronAPI σ) (clean noisy : List (List ℚ)) :
    ∀ fuel trials (s s2 : DAState σ) (t : ℕ),
      learnGo api clean noisy fuel trials s = (s2, t) →
      s2.successFlg = true →
      aggregateError api s2.middle_neurons s2.output_neurons clean noisy
        < MAX_GAP := by
  intro fuel
  induction fuel with
  | zero =>
    intro trials s s2 t heq hflag
    simp [learnGo] at heq
    rw [← heq.1] at hflag
    simp at hflag
  | succ n ih =>
    intro trials s s2 t heq hflag
    unfold learnGo at heq
    by_cases hlt : aggregateError api s.middle_neurons s.output_neurons
        clean noisy < MAX_GAP
    · rw [if_pos hlt] at heq
      have hs2 : s2 = { s with successFlg := true } := by
        have := congrArg Prod.fst heq
        simpa using this.symm
      rw [hs2]
      simpa using hlt
    · rw [if_neg hlt] at heq
      exact ih _ _ _ _ heq hflag

lemma shapesOk_of_valid (s : DAState σ) (clean noisy : List (List ℚ))
    (hlen : clean.length = noisy.length)
    (hc : ∀ v ∈ clean, v.length = s.input_neuron_num)
    (hn : ∀ v ∈ noisy, v.length = s.input_neuron_num) :
    shapesOk s clean noisy = true := by
  simp [shapesOk, List.all_eq_true, hlen]
  exact ⟨fun v hv => hc v hv, fun v hv => hn v hv⟩

lemma shapesOk_iff (s : DAState σ) (clean noisy : List (List ℚ)) :
    shapesOk s clean noisy = true ↔
      clean.length = noisy.length
      ∧ (∀ v ∈ clean, v.length = s.input_neuron_num)
      ∧ (∀ v ∈ noisy, v.length = s.input_neuron_num) := by
  simp [shapesOk, List.all_eq_true, and_assoc]

lemma mk_middle_layer_type_eq (σ : Type) (mkMid mkOut : ℕ → σ)
    (num_input : ℕ) (rate : ℚ) (s : DAState σ)
    (hmk : mkDenoisingAutoencoder σ mkMid mkOut num_input rate = some s) :
    s.middle_layer_type = 0 := by
  unfold mkDenoisingAutoencoder at hmk
  split at hmk
  · simp at hmk
  split at hmk
  · simp at hmk
  split at hmk
  · simp at hmk
  · rw [← Option.some_inj.mp hmk]

/-- C7: the per-element error metric `mean_squared_error(output, answer)`
equals `(output - answer)^2`; in particular `mean_squared_error 3 5 = 4`, and
`mean_squared_error x x = 0` for every `x`. -/
theorem mean_squared_error_spec :
    (∀ output answer : ℚ, mean_squared_error output answer = (output - answer) ^ 2)
    ∧ mean_squared_error 3 5 = 4
    ∧ ∀ x : ℚ, mean_squared_error x x = 0 :=
  ⟨fun _ _ => rfl, by norm_num [mean_squared_error],
    fun x => by simp [mean_squared_error]⟩

/-- C5: `out` is deterministic for fixed weights — two successive calls with
the same input vector yield identical output vectors — and `out` mutates no
neuron state (it only rewrites the `h`/`o` buffers). -/
theorem out_deterministic (σ : Type) (api : NeuronAPI σ) (s : DAState σ)
    (input : List ℚ) (b1 b2 : Bool) :
    ((s.out api input b1).2.out api input b2).1 = (s.out api input b1).1
    ∧ (s.out api input b1).2.middle_neurons = s.middle_neurons
    ∧ (s.out api input b1).2.output_neurons = s.output_neurons :=
  ⟨rfl, rfl, rfl⟩

/-- C6: `getMiddleOutput` returns a batch of the same length as its input
whose `i`-th element is the middle-layer output for the `i`-th input vector,
and — on a state whose middle-neuron collection has the declared width —
every returned element has length `middle_neuron_num`. -/
theorem getMiddleOutput_spec (σ : Type) (api : NeuronAPI σ) (s : DAState σ)
    (noisy_input : List (List ℚ))
    (hwf : s.middle_neurons.length = s.middle_neuron_num) :
    (s.getMiddleOutput api noisy_input).1.length = noisy_input.length
    ∧ (∀ i : ℕ, (s.getMiddleOutput api noisy_input).1.get? i
        = (noisy_input.get? i).map (middleOut api s.middle_neurons))
    ∧ ∀ v ∈ (s.getMiddleOutput api noisy_input).1,
        v.length = s.middle_neuron_num := by
  refine ⟨by simp [DAState.getMiddleOutput],
    fun i => by simp [DAState.getMiddleOutput, List.get?_map], ?_⟩
  intro v hv
  simp only [DAState.getMiddleOutput, List.mem_map] at hv
  obtain ⟨w, _, rfl⟩ := hv
  simpa [middleOut] using hwf

/-- Witness for C6: the concrete instance `demoState` with a two-vector
batch. -/
theorem getMiddleOutput_spec_witness :
    demoState.middle_neurons.length = demoState.middle_neuron_num
    ∧ ((demoState.getMiddleOutput zeroAPI
          ([[0], [1]] : List (List ℚ))).1.length
        = ([[0], [1]] : List (List ℚ)).length
      ∧ (∀ i : ℕ, (demoState.getMiddleOutput zeroAPI
            ([[0], [1]] : List (List ℚ))).1.get? i
          = (([[0], [1]] : List (List ℚ)).get? i).map
              (middleOut zeroAPI demoState.middle_neurons))
      ∧ ∀ v ∈ (demoState.getMiddleOutput zeroAPI
            ([[0], [1]] : List (List ℚ))).1,
          v.length = demoState.middle_neuron_num) :=
  ⟨rfl, getMiddleOutput_spec Unit zeroAPI demoState [[0], [1]] rfl⟩

/-- C3 counterexample: `num_input = 4` with `compression_rate = 1/10` is a
valid input in the claim's sense (`4 > 0` and `1/10 ∈ (0, 1]`), yet the
claimed middle width `round(4 × 1/10)` is `0` — not at least `1` — and the
constructor produces no instance at all. -/
theorem mk_spec_counterexample :
    (0 < 4 ∧ 0 < (1 / 10 : ℚ) ∧ (1 / 10 : ℚ) ≤ 1)
    ∧ round ((4 : ℚ) * (1 / 10)) = 0
    ∧ mkDenoisingAutoencoder Unit (fun _ => ()) (fun _ => ()) 4 (1 / 10)
        = none := by
  refine ⟨by norm_num, by norm_num [round_eq], ?_⟩
  unfold mkDenoisingAutoencoder
  rw [if_neg (by norm_num), if_neg (by norm_num),
    if_pos (show (round (((4 : ℕ) : ℚ) * (1 / 10))).toNat = 0 by
      norm_num [round_eq])]

/-- C3 (amended): for every valid construction input that yields at least one
middle neuron — `round(num_input × compression_rate) ≥ 1`; a rate so small
that the product rounds to `0` makes construction fail instead — the
constructor sets `middle_neuron_num = round(num_input × compression_rate)`,
which is at least `1`, and sets `output_neuron_num = input_neuron_num`;
in particular `num_input = 4` with `compression_rate = 1/2` yields
`middle_neuron_num = 2` and `output_neuron_num = 4`. -/
theorem mk_spec (σ : Type) (mkMid mkOut : ℕ → σ) (num_input : ℕ) (rate : ℚ)
    (h0 : 0 < num_input) (h1 : 0 < rate) (h2 : rate ≤ 1)
    (h3 : 1 ≤ round ((num_input : ℚ) * rate)) :
    (∃ s, mkDenoisingAutoencoder σ mkMid mkOut num_input rate = some s
      ∧ s.middle_neuron_num = (round ((num_input : ℚ) * rate)).toNat
      ∧ 1 ≤ s.middle_neuron_num
      ∧ s.output_neuron_num = s.input_neuron_num
      ∧ s.input_neuron_num = num_input)
    ∧ ∃ s2, mkDenoisingAutoencoder Unit (fun _ => ()) (fun _ => ()) 4 (1 / 2)
        = some s2
      ∧ s2.middle_neuron_num = 2 ∧ s2.output_neuron_num = 4 := by
  constructor
  · have hm : 1 ≤ (round ((num_input : ℚ) * rate)).toNat := by omega
    refine ⟨{ input_neuron_num := num_input
              middle_neuron_num := (round ((num_input : ℚ) * rate)).toNat
              output_neuron_num := num_input
              middle_layer_type := 0
              successFlg := true
              middle_neurons :=
                (List.range (round ((num_input : ℚ) * rate)).toNat).map mkMid
              output_neurons := (List.range num_input).map mkOut
              h := List.replicate (round ((num_input : ℚ) * rate)).toNat 0
              o := List.replicate num_input 0
              learnedH := List.replicate (round ((num_input : ℚ) * rate)).toNat 0
              learnedO := List.replicate num_input 0 }, ?_, rfl, hm, rfl, rfl⟩
    unfold mkDenoisingAutoencoder
    rw [if_neg (Nat.pos_iff_ne_zero.mp h0),
      if_neg (by push_neg; exact ⟨h1, h2⟩), if_neg (by omega)]
  · refine ⟨{ input_neuron_num := 4
              middle_neuron_num := 2
              output_neuron_num := 4
              middle_layer_type := 0
              successFlg := true
              middle_neurons := [(), ()]
              output_neurons := [(), (), (), ()]
              h := [0, 0]
              o := [0, 0, 0, 0]
              learnedH := [0, 0]
              learnedO := [0, 0, 0, 0] }, ?_, rfl, rfl⟩
    have hr2 : (round (((4 : ℕ) : ℚ) * (1 / 2))).toNat = 2 := by
      rw [show round (((4 : ℕ) : ℚ) * (1 / 2)) = 2 by norm_num [round_eq]]
      rfl
    unfold mkDenoisingAutoencoder
    rw [if_neg (by norm_num), if_neg (by norm_num), if_neg (by omega), hr2]
    rfl

/-- Witness for C3's amended theorem at the concrete input `(4, 1/2)`. -/
theorem mk_spec_witness :
    (0 < 4 ∧ 0 < (1 / 2 : ℚ) ∧ (1 / 2 : ℚ) ≤ 1
      ∧ 1 ≤ round (((4 : ℕ) : ℚ) * (1 / 2)))
    ∧ ((∃ s, mkDenoisingAutoencoder Unit (fun _ => ()) (fun _ => ()) 4 (1 / 2)
          = some s
        ∧ s.middle_neuron_num = (round (((4 : ℕ) : ℚ) * (1 / 2))).toNat
        ∧ 1 ≤ s.middle_neuron_num
        ∧ s.output_neuron_num = s.input_neuron_num
        ∧ s.input_neuron_num = 4)
      ∧ ∃ s2, mkDenoisingAutoencoder Unit (fun _ => ()) (fun _ => ()) 4 (1 / 2)
          = some s2
        ∧ s2.middle_neuron_num = 2 ∧ s2.output_neuron_num = 4) :=
  ⟨⟨by norm_num, by norm_num, by norm_num, by norm_num [round_eq]⟩,
    mk_spec Unit (fun _ => ()) (fun _ => ()) 4 (1 / 2) (by norm_num)
      (by norm_num) (by norm_num) (by norm_num [round_eq])⟩

/-- C9: every configuration error — zero input size, non-positive compression
rate, or a compression rate yielding zero middle neurons — is surfaced at
construction time: instance creation fails. -/
theorem mk_config_error (σ : Type) (mkMid mkOut : ℕ → σ) (num_input : ℕ)
    (rate : ℚ)
    (h : num_input = 0 ∨ rate ≤ 0 ∨ round ((num_input : ℚ) * rate) ≤ 0) :
    mkDenoisingAutoencoder σ mkMid mkOut num_input rate = none := by
  unfold mkDenoisingAutoencoder
  by_cases hz : num_input = 0
  · rw [if_pos hz]
  rw [if_neg hz]
  by_cases hr : rate ≤ 0 ∨ 1 < rate
  · rw [if_pos hr]
  rw [if_neg hr]
  rcases h with h | h | h
  · exact absurd h hz
  · exact absurd (Or.inl h) hr
  · rw [if_pos (by omega)]

/-- Witness for C9 at the concrete invalid input `num_input = 0`. -/
theorem mk_config_error_witness :
    ((0 : ℕ) = 0 ∨ (1 / 2 : ℚ) ≤ 0 ∨ round ((0 : ℚ) * (1 / 2)) ≤ 0)
    ∧ mkDenoisingAutoencoder Unit (fun _ => ()) (fun _ => ()) 0 (1 / 2)
        = none :=
  ⟨Or.inl rfl,
    mk_config_error Unit (fun _ => ()) (fun _ => ()) 0 (1 / 2) (Or.inl rfl)⟩

/-- C8: a call to `learn` whose clean and noisy batches have different
lengths, or that contains a vector whose length differs from
`input_neuron_num`, fails with the shape-mismatch error instead of silently
truncating or padding. -/
theorem learn_shape_mismatch (σ : Type) (api : NeuronAPI σ) (s : DAState σ)
    (clean noisy : List (List ℚ))
    (h : clean.length ≠ noisy.length
      ∨ (∃ v ∈ clean, v.length ≠ s.input_neuron_num)
      ∨ (∃ v ∈ noisy, v.length ≠ s.input_neuron_num)) :
    learn api s clean noisy = .error "shape mismatch" := by
  have hbad : ¬ (shapesOk s clean noisy = true) := by
    intro hok
    rcases (shapesOk_iff s clean noisy).mp hok with ⟨hl, hc, hn⟩
    rcases h with h | ⟨v, hv, hvne⟩ | ⟨v, hv, hvne⟩
    · exact h hl
    · exact hvne (hc v hv)
    · exact hvne (hn v hv)
  unfold learn
  rw [if_neg hbad]

/-- Witness for C8 at a concrete length-mismatched call. -/
theorem learn_shape_mismatch_witness :
    (([[0]] : List (List ℚ)).length ≠ ([] : List (List ℚ)).length
      ∨ (∃ v ∈ ([[0]] : List (List ℚ)), v.length ≠ demoState.input_neuron_num)
      ∨ (∃ v ∈ ([] : List (List ℚ)), v.length ≠ demoState.input_neuron_num))
    ∧ learn zeroAPI demoState [[0]] [] = .error "shape mismatch" :=
  ⟨Or.inl (by decide),
    learn_shape_mismatch Unit zeroAPI demoState [[0]] [] (Or.inl (by decide))⟩

lemma mk_demoState :
    mkDenoisingAutoencoder Unit (fun _ => ()) (fun _ => ()) 1 1
      = some demoState := by
  have hr : (round (((1 : ℕ) : ℚ) * 1)).toNat = 1 := by
    rw [show round (((1 : ℕ) : ℚ) * 1) = 1 by norm_num [round_eq]]
    rfl
  unfold mkDenoisingAutoencoder
  rw [if_neg (by norm_num), if_neg (by norm_num), if_neg (by omega), hr]
  rfl

/-- C10: the middle-layer activation type is fixed at `0` (identity): the
constructor — whose only inputs are `(num_input, compression_rate)` — sets it
to the header's in-class initializer `0`, and none of the public operations
(`out`, `getMiddleOutput`, `learn`) ever changes it, so the sigmoid, tanh and
rectified-linear variants are never used for the middle layer. -/
theorem middle_layer_type_fixed (σ : Type) (api : NeuronAPI σ)
    (mkMid mkOut : ℕ → σ) (num_input : ℕ) (rate : ℚ) (s s2 : DAState σ)
    (input : List ℚ) (b : Bool) (batch clean noisy : List (List ℚ)) (t : ℕ)
    (hmk : mkDenoisingAutoencoder σ mkMid mkOut num_input rate = some s) :
    s.middle_layer_type = 0
    ∧ (s.out api input b).2.middle_layer_type = 0
    ∧ (s.getMiddleOutput api batch).2.middle_layer_type = 0
    ∧ (learn api s clean noisy = .ok (s2, t) → s2.middle_layer_type = 0) := by
  have h0 : s.middle_layer_type = 0 :=
    mk_middle_layer_type_eq σ mkMid mkOut num_input rate s hmk
  refine ⟨h0, h0, h0, ?_⟩
  intro hok
  unfold learn at hok
  split at hok
  · have heq : learnGo api clean noisy MAX_TRIAL 0 s = (s2, t) :=
      Except.ok.inj hok
    have h1 : (learnGo api clean noisy MAX_TRIAL 0 s).1 = s2 :=
      congrArg Prod.fst heq
    rw [← h1, learnGo_middle_layer_type api clean noisy MAX_TRIAL 0 s]
    exact h0
  · simp at hok

/-- Witness for C10 at the concrete instance constructed from `(1, 1)`. -/
theorem middle_layer_type_fixed_witness :
    mkDenoisingAutoencoder Unit (fun _ => ()) (fun _ => ()) 1 1
        = some demoState
    ∧ (demoState.middle_layer_type = 0
      ∧ (demoState.out zeroAPI [0] false).2.middle_layer_type = 0
      ∧ (demoState.getMiddleOutput zeroAPI []).2.middle_layer_type = 0
      ∧ (learn zeroAPI demoState [[0]] [[0]] = .ok (demoState, 0) →
          demoState.middle_layer_type = 0)) :=
  ⟨mk_demoState,
    middle_layer_type_fixed Unit zeroAPI (fun _ => ()) (fun _ => ()) 1 1
      demoState demoState [0] false [] [[0]] [[0]] 0 mk_demoState⟩

/-- C1: on every pair of non-empty, equal-length, well-shaped clean and noisy
batches, `learn` executes at most `MAX_TRIAL = 300` update trials, and if the
aggregate error never drops below the tolerance the success flag is false
after exactly 300 trials. -/
theorem learn_trial_bound (σ : Type) (api : NeuronAPI σ) (s : DAState σ)
    (clean noisy : List (List ℚ)) (hne : clean ≠ [])
    (hlen : clean.length = noisy.length)
    (hc : ∀ v ∈ clean, v.length = s.input_neuron_num)
    (hn : ∀ v ∈ noisy, v.length = s.input_neuron_num) :
    ∃ s2 t, learn api s clean noisy = .ok (s2, t) ∧ t ≤ MAX_TRIAL
      ∧ ((∀ k < MAX_TRIAL, MAX_GAP ≤ aggregateError api
            (iterUpdate api clean noisy k s).middle_neurons
            (iterUpdate api clean noisy k s).output_neurons clean noisy) →
          s2.successFlg = false ∧ t = MAX_TRIAL) := by
  have hok : shapesOk s clean noisy = true :=
    shapesOk_of_valid s clean noisy hlen hc hn
  refine ⟨(learnGo api clean noisy MAX_TRIAL 0 s).1,
    (learnGo api clean noisy MAX_TRIAL 0 s).2, ?_, ?_, ?_⟩
  · unfold learn
    rw [if_pos hok]
  · simpa using learnGo_trials_le api clean noisy MAX_TRIAL 0 s
  · intro hstuck
    rw [learnGo_stuck api clean noisy MAX_TRIAL 0 s hstuck]
    exact ⟨rfl, Nat.zero_add _⟩

/-- Witness for C1: a collaborator whose outputs stay at `1` against a zero
target never converges, so `learn` stops after exactly 300 failed trials. -/
theorem learn_trial_bound_witness :
    ∃ s2 t, learn oneAPI demoState [[0]] [[0]] = .ok (s2, t) ∧ t ≤ MAX_TRIAL
      ∧ ((∀ k < MAX_TRIAL, MAX_GAP ≤ aggregateError oneAPI
            (iterUpdate oneAPI [[0]] [[0]] k demoState).middle_neurons
            (iterUpdate oneAPI [[0]] [[0]] k demoState).output_neurons
            [[0]] [[0]]) →
          s2.successFlg = false ∧ t = MAX_TRIAL) :=
  learn_trial_bound Unit oneAPI demoState [[0]] [[0]] (by decide) rfl
    (by decide) (by decide)

lemma learnGo_converged (api : NeuronAPI σ) (clean noisy : List (List ℚ))
    (fuel trials : ℕ) (s : DAState σ)
    (hlt : aggregateError api s.middle_neurons s.output_neurons clean noisy
      < MAX_GAP) :
    learnGo api clean noisy (fuel + 1) trials s
      = ({ s with successFlg := true }, trials) := by
  unfold learnGo
  rw [if_pos hlt]

lemma learn_immediate (api : NeuronAPI σ) (s : DAState σ)
    (clean noisy : List (List ℚ))
    (hsh : shapesOk s clean noisy = true)
    (hlt : aggregateError api s.middle_neurons s.output_neurons clean noisy
      < MAX_GAP) :
    learn api s clean noisy = .ok ({ s with successFlg := true }, 0) := by
  unfold learn
  rw [if_pos hsh, show MAX_TRIAL = 299 + 1 from rfl,
    learnGo_converged api clean noisy 299 0 s hlt]

/-- C2: whenever `learn` returns with the success flag true, the aggregate
mean-squared error over the training batch — recomputed by `aggregateError`
through fresh forward passes over the noisy inputs against the clean
targets — is strictly below `MAX_GAP = 1/10`. -/
theorem learn_converged_error (σ : Type) (api : NeuronAPI σ)
    (s s2 : DAState σ) (clean noisy : List (List ℚ)) (t : ℕ)
    (hok : learn api s clean noisy = .ok (s2, t))
    (hflag : s2.successFlg = true) :
    aggregateError api s2.middle_neurons s2.output_neurons clean noisy
      < MAX_GAP := by
  unfold learn at hok
  split at hok
  · exact learnGo_success api clean noisy MAX_TRIAL 0 s s2 t
      (Except.ok.inj hok) hflag
  · simp at hok

/-- Witness for C2: with the all-zero collaborator the zero batch converges
immediately and the recomputed error is below the tolerance. -/
theorem learn_converged_error_witness :
    aggregateError zeroAPI demoState.middle_neurons demoState.output_neurons
      [[0]] [[0]] < MAX_GAP :=
  learn_converged_error Unit zeroAPI demoState demoState [[0]] [[0]] 0
    (by
      have herr : aggregateError zeroAPI demoState.middle_neurons
          demoState.output_neurons [[0]] [[0]] < MAX_GAP := by
        norm_num [aggregateError, forwardPass, middleOut, sqErrSum,
          mean_squared_error, zeroAPI, demoState, MAX_GAP]
      exact learn_immediate zeroAPI demoState [[0]] [[0]] rfl herr)
    rfl

/-- C4: for every total neuron count `N` and every worker-thread count
`T ≥ 1`, the per-thread contiguous ranges partition `[0, N)`: an index `k`
lies in exactly one range iff `k < N` — full coverage and no overlap. -/
theorem threadRanges_partition (N T k : ℕ) (hT : 1 ≤ T) :
    k < N ↔ ∃! r : Fin (threadRanges N T).length,
      ((threadRanges N T).get r).1 ≤ k ∧ k < ((threadRanges N T).get r).2 := by
  constructor
  · intro hk
    have hiT : containingRange N T k < T := containingRange_lt N T k hT
    have hiFin : containingRange N T k < (threadRanges N T).length := by
      rw [threadRanges_length]
      exact hiT
    refine ⟨⟨containingRange N T k, hiFin⟩, ?_, ?_⟩
    · show ((threadRanges N T).get ⟨containingRange N T k, hiFin⟩).1 ≤ k
        ∧ k < ((threadRanges N T).get ⟨containingRange N T k, hiFin⟩).2
      rw [threadRanges_get]
      exact ⟨containingRange_lo N T k hT, containingRange_hi N T k hT hk⟩
    · intro r2 hr2
      have hr2b : ((threadRanges N T).get r2).1 ≤ k
          ∧ k < ((threadRanges N T).get r2).2 := hr2
      rw [threadRanges_get] at hr2b
      have hr2T : r2.val < T :=
        lt_of_lt_of_eq r2.isLt (threadRanges_length N T)
      apply Fin.ext
      show r2.val = containingRange N T k
      exact containingRange_unique N T k r2.val hT hk hr2T hr2b.1 hr2b.2
  · intro h
    obtain ⟨r, hr, _⟩ := h
    have hrb : ((threadRanges N T).get r).1 ≤ k
        ∧ k < ((threadRanges N T).get r).2 := hr
    rw [threadRanges_get] at hrb
    exact lt_of_lt_of_le hrb.2 (rangeBoundary_le_N N T _)

/-- Witness for C4: five neurons over two worker threads, index 3. -/
theorem threadRanges_partition_witness :
    1 ≤ 2 ∧ ((3 : ℕ) < 5 ↔ ∃! r : Fin (threadRanges 5 2).length,
      ((threadRanges 5 2).get r).1 ≤ 3 ∧ 3 < ((threadRanges 5 2).get r).2) :=
  ⟨by decide, threadRanges_partition 5 2 3 (by decide)⟩

end NNCuda
